import Mathlib

/-!
Verification of the fountainflow Raptor-code skeleton (RFC 5053) against its
natural-language specification.  The Rust sources under src/src are embedded
shallowly: machine integers become Nat (the concrete inputs evaluated here stay
far below every u32/usize overflow boundary), fallible code returns
Option/Except, and `&mut self` methods are threaded as explicit state.
-/

set_option maxRecDepth 10000

/-- Q = 65521, the largest prime below 2^16 (src/src/tables.rs). -/
def Q : Nat := 65521

/-- The V0 entries literally present in src/src/tables.rs.  The source declares
the array as `[u32; 256]` but lists only these 16 values, eliding the rest
behind a comment; an index beyond 15 has no value in the source. -/
def V0src : List Nat :=
  [251291136, 3952231631, 3370958628, 4070167936, 123631495, 3351110283,
   3218676425, 2011642291, 774603218, 2402805061, 1004366930,
   1843948209, 428891132, 3746331984, 1591258008, 3067016507]

/-- The V1 entries literally present in src/src/tables.rs (16 of the declared 256). -/
def V1src : List Nat :=
  [807385413, 2043073223, 3336749796, 1302105833, 2278607931, 541015020,
   1684564270, 372709334, 3508252125, 1768346005, 1270451292,
   2603029534, 2049387273, 3891424859, 2152948345, 4114760273]

/-- tables.rs `rand(x, i, m)` over the 16 embedded table entries.  A lookup past
the embedded entries is `none` (in the source it is an out-of-bounds array
access).  All call sites pass `m > 0`. -/
def randSrc (x i m : Nat) : Option Nat :=
  match V0src.get? ((x + i) % 256), V1src.get? ((x / 256 + i) % 256) with
  | some v0, some v1 => some (Nat.xor v0 v1 % m)
  | _, _ => none

/-- tables.rs `deg(v)`: first degree d[j] with v < f[j], else 40. -/
def deg (v : Nat) : Nat :=
  if v < 10241 then 1
  else if v < 491582 then 2
  else if v < 712794 then 3
  else if v < 831695 then 4
  else if v < 948446 then 10
  else if v < 1032189 then 11
  else if v < 1048576 then 40
  else 40

/-- systematic.rs KMAX = 256. -/
def KMAX : Nat := 256

/-- The (K, J) pairs embedded in src/src/systematic.rs: only K = 4..79 are present. -/
def systematicIndexTable : List (Nat × Nat) :=
  [(4, 18), (5, 14), (6, 61), (7, 46), (8, 39), (9, 58), (10, 62), (11, 55), (12, 41),
   (13, 67), (14, 50), (15, 75), (16, 43), (17, 19), (18, 37), (19, 30), (20, 22),
   (21, 53), (22, 25), (23, 34), (24, 29), (25, 20), (26, 33), (27, 15), (28, 24),
   (29, 13), (30, 35), (31, 51), (32, 9), (33, 49), (34, 45), (35, 63), (36, 8),
   (37, 48), (38, 54), (39, 47), (40, 59), (41, 71), (42, 32), (43, 52), (44, 38),
   (45, 27), (46, 26), (47, 69), (48, 23), (49, 56), (50, 40), (51, 66), (52, 17),
   (53, 65), (54, 74), (55, 21), (56, 36), (57, 57), (58, 60), (59, 16), (60, 64),
   (61, 42), (62, 12), (63, 31), (64, 68), (65, 28), (66, 73), (67, 70), (68, 44),
   (69, 11), (70, 7), (71, 72), (72, 6), (73, 10), (74, 5), (75, 4), (76, 3),
   (77, 2), (78, 1), (79, 0)]

/-- systematic.rs `get_systematic_index(k)`: range guard, then HashMap lookup. -/
def getSystematicIndex (k : Nat) : Option Nat :=
  if k < 4 ∨ k > KMAX then none
  else systematicIndexTable.lookup k

/-- systematic.rs `combinations(n, k)`: binomial via the product loop
`c = c * (n - i) / (i + 1)` for i in 0..min(k, n-k). -/
def combinations (n k : Nat) : Nat :=
  if k > n then 0
  else if k = 0 ∨ k = n then 1
  else
    (List.range (min k (n - k))).foldl (fun c i => c * (n - i) / (i + 1)) 1

/-- Ceiling division on Nat.  Used where the Rust code computes a ceiling via
f64 arithmetic; at every input evaluated in this file the f64 computation is
exact, so the two agree there. -/
def ceilDiv (a b : Nat) : Nat := (a + b - 1) / b

/-- The `while x * (x - 1) < 2 * k { x += 1 }` loop of LDPCParams::new,
made structural with fuel (fuel 2k + 2 always suffices from start 1). -/
def findX (k : Nat) : Nat → Nat → Nat
  | 0, x => x
  | fuel + 1, x => if x * (x - 1) < 2 * k then findX k fuel (x + 1) else x

/-- The `while combinations(h, (h+1)/2) < k + s { h += 1 }` loop of
LDPCParams::new, made structural with fuel. -/
def findH (target : Nat) : Nat → Nat → Nat
  | 0, h => h
  | fuel + 1, h => if combinations h ((h + 1) / 2) < target then findH target fuel (h + 1) else h

/-- systematic.rs LDPCParams { s, h, l }. -/
structure LDPCParams where
  s : Nat
  h : Nat
  l : Nat
deriving DecidableEq, Repr

/-- systematic.rs `LDPCParams::new(k)`.  The source computes
`(k as f64 * 0.01).ceil()`; for every k ≤ 256 that f64 value rounds to the
exact rational k/100, so it equals `ceilDiv k 100`.  No prime adjustment of S
is performed by the source. -/
def LDPCParams.new (k : Nat) : LDPCParams :=
  let x := findX k (2 * k + 2) 1
  let s := ceilDiv k 100 + x
  let h := findH (k + s) (k + s + 2) 1
  { s := s, h := h, l := k + s + h }

/-- The value of the X loop inside LDPCParams::new. -/
def ldpcX (k : Nat) : Nat := findX k (2 * k + 2) 1

/-- The least-solution characterisation of LDPCParams::new, stated
independently of the loops: X is least positive with X(X-1) ≥ 2K,
S = ceil(K/100) + X with no prime adjustment, H is least positive with
C(H, ceil(H/2)) ≥ K + S, and L = K + S + H. -/
def ldpcCheck (k : Nat) : Bool :=
  let p := LDPCParams.new k
  let x := ldpcX k
  decide (1 ≤ x) && decide (2 * k ≤ x * (x - 1)) &&
  ((List.range x).all fun y => decide (y = 0) || decide (y * (y - 1) < 2 * k)) &&
  decide (p.s = ceilDiv k 100 + x) &&
  decide (1 ≤ p.h) && decide (k + p.s ≤ combinations p.h ((p.h + 1) / 2)) &&
  ((List.range p.h).all fun g => decide (g = 0) || decide (combinations g ((g + 1) / 2) < k + p.s)) &&
  decide (p.l = k + p.s + p.h)

/-- systematic.rs `generate_gray_sequence(length)`. -/
def generateGraySequence (length : Nat) : List Nat :=
  (List.range length).map (fun i => Nat.xor i (Nat.shiftRight i 1))

/-- distribution.rs `DegreeGenerator::generate_triple(k, x)`.  The method takes
`&mut self` but reads no generator state (the thread-local RNG is unused here),
so it embeds as a pure function of (k, x).  `none` models both the `?` on the
systematic-index lookup — a clean None in the source, which callers surface as
a recoverable Err — and an out-of-bounds V0/V1 access inside rand, which in
the source is an index panic that aborts rather than surfacing as Err.  The
two are conflated here, so no decoder-level run below is allowed to rest on
the rand path: every decoder run evaluated in this file that reaches `none`
does so through the systematic-index lookup (K beyond the embedded table),
where Err with state kept is the source's real behaviour. -/
def generateTriple (k x : Nat) : Option (Nat × Nat × Nat) :=
  match getSystematicIndex k with
  | none => none
  | some j =>
    let a1 := (53591 + j * 997) % Q
    let b1 := (10267 * (j + 1)) % Q
    let y := (b1 + x * a1) % Q
    match randSrc y 0 1048576, randSrc y 1 (k - 1), randSrc y 2 k with
    | some v, some ra, some rb => some (deg v, 1 + ra, rb)
    | _, _, _ => none

/-- Modelled from the spec: the full 256-entry V0/V1 tables of RFC 5053.
src/src/tables.rs declares both as `[u32; 256]` but embeds only 16 entries
each (the remainder is elided behind a comment), so the missing 240 entries
of each table are represented abstractly as total functions. -/
structure RandTables where
  v0 : Nat → Nat
  v1 : Nat → Nat

/-- tables.rs `rand(x, i, m)` parametric in the (elided) full tables. -/
def rand (t : RandTables) (x i m : Nat) : Nat :=
  Nat.xor (t.v0 ((x + i) % 256)) (t.v1 ((x / 256 + i) % 256)) % m

/-- A concrete instance of the full tables: the 16 embedded values, 0 elsewhere. -/
def srcTables : RandTables :=
  { v0 := fun n => V0src.getD n 0, v1 := fun n => V1src.getD n 0 }

/-- linear_algebra.rs BinaryMatrix { rows, cols, data }.  Entries are u8 bits. -/
structure BinaryMatrix where
  rows : Nat
  cols : Nat
  data : List (List Nat)
deriving DecidableEq, Repr

/-- linear_algebra.rs `BinaryMatrix::new(rows, cols)`: the zero matrix. -/
def BinaryMatrix.new (rows cols : Nat) : BinaryMatrix :=
  { rows := rows, cols := cols, data := List.replicate rows (List.replicate cols 0) }

/-- The first i in [start, rows) with data[i][col] = 1, as in the pivot search of
gaussian_elimination. -/
def findPivot (data : List (List Nat)) (col start rows : Nat) : Option Nat :=
  ((List.range rows).drop start).find? (fun i => (data.getD i []).getD col 0 == 1)

/-- The row swap of gaussian_elimination: it exchanges entries at indices
0..cols only, so on an augmented row the appended right-hand-side entry stays
in place.  Both rows have at least cols entries at every call site. -/
def swapRowsHead (data : List (List Nat)) (r1 r2 cols : Nat) : List (List Nat) :=
  let row1 := data.getD r1 []
  let row2 := data.getD r2 []
  (data.set r1 (row2.take cols ++ row1.drop cols)).set r2 (row1.take cols ++ row2.drop cols)

/-- `for j in pivot_col..cols { dst[j] ^= src[j] }` of gaussian_elimination. -/
def xorRange (dst src : List Nat) (lo hi : Nat) : List Nat :=
  (List.range' lo (hi - lo)).foldl
    (fun d j => d.set j (Nat.xor (d.getD j 0) (src.getD j 0))) dst

/-- The column-elimination pass of gaussian_elimination: every row i other than
the pivot row with a 1 in the pivot column gets the pivot row XORed into its
entries pivot_col..cols. -/
def elimCol (data : List (List Nat)) (pr pc cols rows : Nat) : List (List Nat) :=
  (List.range rows).foldl
    (fun d i =>
      if i ≠ pr ∧ (d.getD i []).getD pc 0 = 1 then
        d.set i (xorRange (d.getD i []) (d.getD pr []) pc cols)
      else d)
    data

/-- The main while loop of `BinaryMatrix::gaussian_elimination`, fuelled: each
iteration increments pivot_col, so cols + 1 units of fuel always suffice. -/
def geLoop (cols rows : Nat) : Nat → Nat → Nat → List (List Nat) → List (List Nat) × Bool
  | 0, pr, _, data => (data, pr == rows)
  | fuel + 1, pr, pc, data =>
    if pr < rows ∧ pc < cols then
      match findPivot data pc pr rows with
      | none => geLoop cols rows fuel pr (pc + 1) data
      | some i =>
        let d1 := if i ≠ pr then swapRowsHead data i pr cols else data
        geLoop cols rows fuel (pr + 1) (pc + 1) (elimCol d1 pr pc cols rows)
    else (data, pr == rows)

/-- linear_algebra.rs `BinaryMatrix::gaussian_elimination(&mut self) -> bool`:
returns the mutated matrix and whether a full set of rows pivots was found. -/
def BinaryMatrix.gaussianElimination (m : BinaryMatrix) : BinaryMatrix × Bool :=
  let r := geLoop m.cols m.rows (m.cols + 1) 0 0 m.data
  ({ m with data := r.1 }, r.2)

/-- linear_algebra.rs `BinaryMatrix::solve(&mut self, b)`.  The method clones
self into `augmented`, pushes b[i] onto each cloned row (the cols field of the
clone is not updated), eliminates the clone, and back-substitutes.  All
mutation targets the clone. -/
def BinaryMatrix.solve (m : BinaryMatrix) (b : List Nat) : Option (List Nat) :=
  if b.length ≠ m.rows then none
  else
    let augmented : BinaryMatrix :=
      { m with data := ((List.range m.rows).foldl
          (fun d i => d.set i (d.getD i [] ++ [b.getD i 0])) m.data) }
    let r := augmented.gaussianElimination
    if r.2 = false then none
    else
      some ((List.range m.rows).foldr
        (fun i x =>
          let sum := (List.range' (i + 1) (m.cols - (i + 1))).foldl
            (fun s j => Nat.xor s (Nat.land ((r.1.data.getD i []).getD j 0) (x.getD j 0)))
            ((r.1.data.getD i []).getD m.cols 0)
          x.set i sum)
        (List.replicate m.cols 0))

/-- `solve` with the `&mut self` receiver threaded explicitly: the body of the
source method contains no write to self (every mutation is on the local clone
`augmented`), so the state it returns is the state it received. -/
def BinaryMatrix.solveS (m : BinaryMatrix) (b : List Nat) : BinaryMatrix × Option (List Nat) :=
  (m, m.solve b)

/-- fountain.rs Block { data, seed, degree }. -/
structure Block where
  data : List Nat
  seed : Nat
  degree : Nat
deriving DecidableEq, Repr

/-- fountain.rs FountainError.  The String payload of EncodingError carries no
behaviour and is dropped. -/
inductive FountainError where
  | invalidBlockSize (n : Nat)
  | invalidDegree (n : Nat)
  | encodingError
deriving DecidableEq, Repr

/-- fountain.rs Encoder { blocks, block_size, sequence } (the degree generator
holds no state that next_block reads). -/
structure FEncoder where
  blocks : List (List Nat)
  blockSize : Nat
  sequence : Nat
deriving DecidableEq, Repr

/-- Rust `data.chunks(size)` (size > 0 at every call site), fuelled on length. -/
def chunksFuel (size : Nat) : Nat → List Nat → List (List Nat)
  | 0, _ => []
  | _, [] => []
  | fuel + 1, l => l.take size :: chunksFuel size fuel (l.drop size)

/-- fountain.rs `Encoder::new(data, block_size)`. -/
def FEncoder.new (data : List Nat) (blockSize : Nat) : Except FountainError FEncoder :=
  if blockSize = 0 then .error (.invalidBlockSize blockSize)
  else if blockSize > data.length then .error (.invalidBlockSize blockSize)
  else
    let blocks := chunksFuel blockSize data.length data
    if blocks.length < 4 ∨ blocks.length > 256 then .error (.invalidBlockSize blockSize)
    else .ok { blocks := blocks, blockSize := blockSize, sequence := 0 }

/-- fountain.rs `select_blocks`: indices b % k, then d - 1 steps of + a mod k. -/
def selectIdxs (k a : Nat) : Nat → Nat → List Nat
  | 0, _ => []
  | d + 1, idx => idx :: selectIdxs k a d ((idx + a) % k)

/-- `data[i] ^= byte` over one selected block (selected blocks are never longer
than the accumulator at any call site). -/
def xorInto : List Nat → List Nat → List Nat
  | acc, [] => acc
  | [], _ :: _ => []
  | a :: acc, b :: blk => Nat.xor a b :: xorInto acc blk

/-- fountain.rs `Encoder::next_block(&mut self)`.  On error the `?` returns
before the sequence increment, so the state is unchanged. -/
def FEncoder.nextBlock (e : FEncoder) : FEncoder × Except FountainError Block :=
  match generateTriple e.blocks.length e.sequence with
  | none => (e, .error .encodingError)
  | some (d, a, b) =>
    let idxs := selectIdxs e.blocks.length a d (b % e.blocks.length)
    let data := idxs.foldl (fun acc i => xorInto acc (e.blocks.getD i []))
      (List.replicate e.blockSize 0)
    ({ e with sequence := e.sequence + 1 },
     .ok { data := data, seed := e.sequence, degree := d })

/-- block.rs BlockError. -/
inductive BlockError where
  | invalidParameters
  | transferTooLarge
deriving DecidableEq, Repr

/-- block.rs BlockParameters. -/
structure BlockParameters where
  transferLength : Nat
  alignment : Nat
  symbolSize : Nat
  numBlocks : Nat
  numSubblocks : Nat
deriving DecidableEq, Repr

/-- block.rs `BlockParameters::new(F, W, P, A, Gmax)` (argument order as in the
source: transfer_length, target_subblock_size, max_payload_size, alignment,
max_symbols_per_packet).  The three f64 ceilings are embedded as Nat ceiling
divisions; at the concrete inputs evaluated below the f64 arithmetic is exact,
so the embeddings agree with the source there. -/
def BlockParameters.new (transferLength targetSubblockSize maxPayloadSize alignment
    maxSymbolsPerPacket : Nat) : Except BlockError BlockParameters :=
  if alignment = 0 ∨ maxPayloadSize % alignment ≠ 0 then .error .invalidParameters
  else
    let g := min (min (ceilDiv (maxPayloadSize * 1024) transferLength)
      (maxPayloadSize / alignment)) maxSymbolsPerPacket
    let symbolSize := maxPayloadSize / (alignment * g) * alignment
    let kt := ceilDiv transferLength symbolSize
    let numBlocks := ceilDiv kt KMAX
    let numSubblocks := min (ceilDiv (kt * symbolSize) (numBlocks * targetSubblockSize))
      (symbolSize / alignment)
    if kt * symbolSize > transferLength then .error .transferTooLarge
    else .ok { transferLength := transferLength, alignment := alignment,
               symbolSize := symbolSize, numBlocks := numBlocks,
               numSubblocks := numSubblocks }

/-- transport.rs: u32 big-endian byte encoding (`to_be_bytes`), with the u32
truncation of `degree as u32` made explicit by the mod. -/
def be32 (n : Nat) : List Nat :=
  [n % 4294967296 / 16777216 % 256, n % 4294967296 / 65536 % 256,
   n % 4294967296 / 256 % 256, n % 4294967296 % 256]

/-- transport.rs: `u32::from_be_bytes` over a 4-byte slice. -/
def from32 (bytes : List Nat) : Nat :=
  bytes.getD 0 0 * 16777216 + bytes.getD 1 0 * 65536 + bytes.getD 2 0 * 256 + bytes.getD 3 0

/-- transport.rs `UdpTransport::send_block`: the datagram it hands the socket
is seed, degree, sequence as big-endian u32 fields, then the payload.  Rate
limiting and the socket write do not alter the bytes. -/
def sendFrame (seed degree seq : Nat) (blockData : List Nat) : List Nat :=
  be32 seed ++ be32 degree ++ be32 seq ++ blockData

/-- transport.rs receive-side error (`bail!` on a short datagram). -/
inductive TransportError where
  | packetTooSmall
deriving DecidableEq, Repr

/-- transport.rs `UdpTransport::receive_block` applied to one received
datagram: reject under 12 bytes, else parse the three u32 header fields and
return them together with the payload (the peer address is not modelled). -/
def receiveFrame (buf : List Nat) : Except TransportError (List Nat × Nat × Nat × Nat) :=
  if buf.length < 12 then .error .packetTooSmall
  else .ok (buf.drop 12, from32 (buf.take 4), from32 ((buf.drop 4).take 4),
            from32 ((buf.drop 8).take 4))

/-- decoder.rs BlockState. -/
inductive BlockState where
  | pending
  | processed
  | solved
deriving DecidableEq, Repr

/-- decoder.rs DecoderError.  The String payload of DecodingFailed carries no
behaviour and is dropped. -/
inductive DecoderError where
  | notEnoughBlocks
  | invalidBlockSize (n : Nat)
  | invalidBlockCount (n : Nat)
  | decodingFailed
  | systemNotSolvable
deriving DecidableEq, Repr

/-- `HashMap::insert`: replace any entry with the key, add the new binding.
The model keeps bindings in a list; the decoder's HashMap iteration order is
unspecified in Rust, and every run evaluated below has at most one pending
entry, so the list order is immaterial. -/
def mapInsert {α : Type} (m : List (Nat × α)) (k : Nat) (v : α) : List (Nat × α) :=
  m.filter (fun p => p.1 != k) ++ [(k, v)]

/-- decoder.rs Decoder.  The degree generator field holds no state that any
decoder method reads and is omitted. -/
structure Decoder where
  sourceBlockCount : Nat
  blockSize : Nat
  receivedBlocks : List (Nat × Block)
  blockStates : List (Nat × BlockState)
  decodedBlocks : List (Option (List Nat))
  equationMatrix : BinaryMatrix
  equationValues : List Nat
  ldpc : LDPCParams
  graySequence : List Nat
deriving DecidableEq, Repr

/-- `self.equation_matrix[row][col] ^= 1` at a call site where row and col are
in range (the constraint-initialisation rows k+i and k+s+i are below l). -/
def matToggleT (m : BinaryMatrix) (r c : Nat) : BinaryMatrix :=
  let row := m.data.getD r []
  { m with data := m.data.set r (row.set c (Nat.xor (row.getD c 0) 1)) }

/-- `self.equation_matrix[row][col] ^= 1` with the out-of-bounds panic of the
source made explicit as `none`. -/
def matToggle (m : BinaryMatrix) (r c : Nat) : Option BinaryMatrix :=
  match m.data.get? r with
  | none => none
  | some row =>
    match row.get? c with
    | none => none
    | some v => some { m with data := m.data.set r (row.set c (Nat.xor v 1)) }

/-- decoder.rs `initialize_ldpc_constraints`: for i in 0..s, toggle three
columns of row k + i (the source's Ok result carries no information). -/
def initLdpcConstraints (d : Decoder) : Decoder :=
  let k := d.sourceBlockCount
  let s := d.ldpc.s
  (List.range s).foldl
    (fun d i =>
      let row := k + i
      let a := 1 + i / s * (k / s)
      let b := 1 + (i + 1) / s * (k / s)
      let c := 1 + (i + 2) / s * (k / s)
      { d with equationMatrix :=
          (matToggleT (matToggleT (matToggleT d.equationMatrix row (a % k)) row (b % k))
            row (c % k)) })
    d

/-- decoder.rs `initialize_half_constraints`: for i in 0..h, toggle the columns
(gray[j] + i) % k of row k + s + i for j in 0..(h+1)/2. -/
def initHalfConstraints (d : Decoder) : Decoder :=
  let k := d.sourceBlockCount
  let s := d.ldpc.s
  let h := d.ldpc.h
  (List.range h).foldl
    (fun d i =>
      let row := k + s + i
      { d with equationMatrix :=
          ((List.range ((h + 1) / 2)).foldl
            (fun m j => matToggleT m row ((d.graySequence.getD j 0 + i) % k))
            d.equationMatrix) })
    d

/-- decoder.rs `Decoder::new(source_block_count, block_size)`. -/
def Decoder.new (sourceBlockCount blockSize : Nat) : Except DecoderError Decoder :=
  if sourceBlockCount < 4 ∨ sourceBlockCount > 256 then
    .error (.invalidBlockCount sourceBlockCount)
  else if blockSize = 0 then .error (.invalidBlockSize blockSize)
  else
    let p := LDPCParams.new sourceBlockCount
    let d0 : Decoder :=
      { sourceBlockCount := sourceBlockCount
        blockSize := blockSize
        receivedBlocks := []
        blockStates := []
        decodedBlocks := List.replicate sourceBlockCount none
        equationMatrix := BinaryMatrix.new p.l p.l
        equationValues := List.replicate p.l 0
        ldpc := p
        graySequence := generateGraySequence p.h }
    .ok (initHalfConstraints (initLdpcConstraints d0))

/-- decoder.rs `Decoder::add_block(&mut self, block, sequence)`: size check,
then insert into both maps.  The state is returned with the Result. -/
def Decoder.addBlock (d : Decoder) (block : Block) (sequence : Nat) :
    Decoder × Option DecoderError :=
  if block.data.length ≠ d.blockSize then (d, some (.invalidBlockSize block.data.length))
  else
    ({ d with receivedBlocks := mapInsert d.receivedBlocks sequence block
              blockStates := mapInsert d.blockStates sequence .pending }, none)

/-- Outcome of a decoder step that can return Err (state kept, as with a Rust
Result through `&mut self`) or panic (no state observable). -/
inductive StepResult where
  | ok (d : Decoder)
  | err (d : Decoder) (e : DecoderError)
  | panic
deriving DecidableEq, Repr

/-- decoder.rs `update_equation_matrix(&mut self, row, sequence, degree)`:
build the triple for the sequence number, toggle matrix[row][b % k], then
degree - 1 further toggles stepping by a mod k.  The row index passed by the
caller equals the matrix row count, so each toggle is out of bounds: `panic`
models the source's index panic. -/
def updateEquationMatrix (d : Decoder) (row sequence degree : Nat) : StepResult :=
  match generateTriple d.sourceBlockCount sequence with
  | none => .err d .decodingFailed
  | some (_, a, b) =>
    let k := d.sourceBlockCount
    let first := (matToggle d.equationMatrix row (b % k)).map (fun m => (m, b % k))
    let step := (List.range (degree - 1)).foldl
      (fun st _ =>
        match st with
        | none => none
        | some (m, idx) =>
          (matToggle m row ((idx + a) % k)).map (fun m2 => (m2, (idx + a) % k)))
      first
    match step with
    | none => .panic
    | some (m, _) => .ok { d with equationMatrix := m }

/-- The loop body of `process_pending_blocks` over the pre-collected pending
sequence numbers.  `panic` models the `.unwrap()` on a missing received block
(unreachable: both maps are always inserted together). -/
def ppbGo : Decoder → List Nat → StepResult
  | d, [] => .ok d
  | d, sequence :: rest =>
    match d.receivedBlocks.lookup sequence with
    | none => .panic
    | some block =>
      let row := d.equationMatrix.rows
      let d1 := { d with equationValues := d.equationValues ++ [1] }
      match updateEquationMatrix d1 row block.seed block.degree with
      | .panic => .panic
      | .err d2 e => .err d2 e
      | .ok d2 => ppbGo { d2 with blockStates := mapInsert d2.blockStates sequence .processed } rest

/-- decoder.rs `process_pending_blocks(&mut self)`: collect the pending
sequence numbers, then handle each in turn. -/
def processPendingBlocks (d : Decoder) : StepResult :=
  ppbGo d (((d.blockStates.filter (fun p => p.2 == BlockState.pending)).map (fun p => p.1)))

/-- Outcome of try_decode: Ok(bool) with the mutated state, Err with the
mutated state, or a panic. -/
inductive TDResult where
  | ok (d : Decoder) (solved : Bool)
  | err (d : Decoder) (e : DecoderError)
  | panic
deriving DecidableEq, Repr

/-- decoder.rs `Decoder::try_decode(&mut self)`.  After processing pending
blocks it returns Ok(false) when fewer equation values than K exist (the
values vector starts at length L ≥ K, so this branch is unreachable), else
attempts the solve; on a solution it copies the data of an arbitrary received
block (the model takes the head of the received list for the HashMap's
`values().next()`) into each decoded slot whose solution bit is 1. -/
def Decoder.tryDecode (d : Decoder) : TDResult :=
  match processPendingBlocks d with
  | .panic => .panic
  | .err d1 e => .err d1 e
  | .ok d1 =>
    if d1.equationValues.length < d1.sourceBlockCount then .ok d1 false
    else
      match d1.equationMatrix.solve d1.equationValues with
      | none => .err d1 .systemNotSolvable
      | some solution =>
        let hd := d1.receivedBlocks.head?
        let r := (solution.take d1.sourceBlockCount).enum.foldl
          (fun st p =>
            match st, hd with
            | (db, some e), _ => (db, some e)
            | (db, none), none =>
              if p.2 = 1 then (db, some DecoderError.notEnoughBlocks) else (db, none)
            | (db, none), some pr =>
              if p.2 = 1 then (db.set p.1 (some pr.2.data), none) else (db, none))
          (d1.decodedBlocks, none)
        match r.2 with
        | some e => .err { d1 with decodedBlocks := r.1 } e
        | none => .ok { d1 with decodedBlocks := r.1 } true

/-- decoder.rs `get_decoded_data`: when every slot is decoded, the
concatenation of the slots. -/
def Decoder.getDecodedData (d : Decoder) : Option (List Nat) :=
  if d.decodedBlocks.all (fun b => b.isSome) then
    some (d.decodedBlocks.foldl (fun acc b => acc ++ b.getD []) [])
  else none

/-- Feeding one (ESI, payload) datagram once, as the receive loop does: a
fresh K = 80, T = 1 decoder (L = 104; the systematic table has no entry for
K = 80, so generate_triple(80, x) is None in the source itself — a clean None,
no table access and no matrix write — and try_decode returns
Err(DecodingFailed) with its state kept), add the block (payload [5], seed 0,
degree 1) at sequence 0, try_decode, and expose the state. -/
def feedOnce : Option Decoder :=
  match Decoder.new 80 1 with
  | .error _ => none
  | .ok d0 =>
    let d1 := (d0.addBlock { data := [5], seed := 0, degree := 1 } 0).1
    match d1.tryDecode with
    | .err d2 _ => some d2
    | _ => none

/-- Feeding the identical datagram twice: continue the feedOnce run with the
duplicate add of the same (sequence, payload) block and the try_decode its
arrival triggers, and expose the state.  Every step of this run is one the
source program performs without panicking. -/
def feedTwice : Option Decoder :=
  match feedOnce with
  | none => none
  | some d2 =>
    let d3 := (d2.addBlock { data := [5], seed := 0, degree := 1 } 0).1
    match d3.tryDecode with
    | .err d4 _ => some d4
    | _ => none


/-! Helper lemmas. -/

theorem getSystematicIndex_bounds {k j : Nat} (h : getSystematicIndex k = some j) :
    4 ≤ k ∧ k ≤ 256 := by
  unfold getSystematicIndex at h
  split at h
  · exact absurd h (by simp)
  · next hcond =>
      push_neg at hcond
      unfold KMAX at hcond
      omega

theorem deg_bounds (v : Nat) : 1 ≤ deg v ∧ deg v ≤ 40 := by
  unfold deg
  repeat' split
  all_goals omega

theorem randSrc_some_lt {x i m r : Nat} (h : randSrc x i m = some r) (hm : 0 < m) :
    r < m := by
  unfold randSrc at h
  cases h0 : V0src.get? ((x + i) % 256) with
  | none =>
    simp only [h0] at h
    exact Option.noConfusion h
  | some v0 =>
    cases h1 : V1src.get? ((x / 256 + i) % 256) with
    | none =>
      simp only [h0, h1] at h
      exact Option.noConfusion h
    | some v1 =>
      simp only [h0, h1, Option.some.injEq] at h
      subst h
      exact Nat.mod_lt _ hm

theorem mapInsert_idem {α : Type} (m : List (Nat × α)) (k : Nat) (v : α) :
    mapInsert (mapInsert m k v) k v = mapInsert m k v := by
  unfold mapInsert
  rw [List.filter_append, List.filter_filter]
  simp

theorem foldr_set_length (l : List Nat) (f : Nat → List Nat → Nat) (x0 : List Nat) :
    (l.foldr (fun i x => x.set i (f i x)) x0).length = x0.length := by
  induction l with
  | nil => rfl
  | cons a t ih => simp [List.foldr_cons, List.length_set, ih]

theorem from32_be32 (n : Nat) : from32 (be32 n) = n % 4294967296 := by
  simp [from32, be32, List.getD]
  omega

/-! Claim theorems. -/

/-- Claim C1 (code evaluated at the failing input): for the systematic
round-trip scenario K = 4, T = 1, D = [0, 1, 2, 3], the encoder built from D
cannot even emit the encoding symbol for ESI 0 — `next_block` fails, because
rand indexes V0 at 31, past the 16 embedded table entries.  The claimed
round-trip through try_decode and get_decoded_data therefore never happens. -/
theorem c1_roundtrip_fails_at_first_symbol :
    (FEncoder.new [0, 1, 2, 3] 1).map (fun e => e.nextBlock.2) =
      .ok (.error .encodingError) := by
  rfl

/-- Claim C2 (amended): whenever generate_triple(K, X) returns a triple
(d, a, b), it satisfies 1 ≤ d ≤ 40, 1 ≤ a < K and 0 ≤ b < K; d is NOT clamped
to K.  Determinism holds because the embedding is a pure function of (K, X)
(the source reads no generator state in this method). -/
theorem c2_triple_ranges (k x d a b : Nat)
    (h : generateTriple k x = some (d, a, b)) :
    1 ≤ d ∧ d ≤ 40 ∧ 1 ≤ a ∧ a < k ∧ b < k := by
  unfold generateTriple at h
  cases hj : getSystematicIndex k with
  | none =>
    simp only [hj] at h
    exact Option.noConfusion h
  | some j =>
    have hk4 : 4 ≤ k := (getSystematicIndex_bounds hj).1
    simp only [hj] at h
    cases h0 : randSrc (((10267 * (j + 1)) % Q + x * ((53591 + j * 997) % Q)) % Q) 0 1048576 with
    | none =>
      simp only [h0] at h
      exact Option.noConfusion h
    | some v =>
      cases h1 : randSrc (((10267 * (j + 1)) % Q + x * ((53591 + j * 997) % Q)) % Q) 1 (k - 1) with
      | none =>
        simp only [h0, h1] at h
        exact Option.noConfusion h
      | some ra =>
        cases h2 : randSrc (((10267 * (j + 1)) % Q + x * ((53591 + j * 997) % Q)) % Q) 2 k with
        | none =>
          simp only [h0, h1, h2] at h
          exact Option.noConfusion h
        | some rb =>
          simp only [h0, h1, h2, Option.some.injEq, Prod.mk.injEq] at h
          obtain ⟨hd, ha, hb⟩ := h
          have hra : ra < k - 1 := randSrc_some_lt h1 (by omega)
          have hrb : rb < k := randSrc_some_lt h2 (by omega)
          have hdeg := deg_bounds v
          subst hd
          subst ha
          subst hb
          refine ⟨hdeg.1, hdeg.2, by omega, by omega, hrb⟩

/-- Claim C2 witness: a concrete in-table triple, generate_triple(4, 28034)
returns (d, a, b) = (2, 2, 0), satisfying the amended bounds. -/
theorem c2_witness : 1 ≤ 2 ∧ 2 ≤ 40 ∧ 1 ≤ 2 ∧ 2 < 4 ∧ 0 < 4 :=
  c2_triple_ranges 4 28034 2 2 0 (by rfl)

/-- Claim C2 counterexample: generate_triple(4, 52942) returns d = 10, which
violates the claimed bound d ≤ min(40, K) = 4; the source performs no clamp of
d to K. -/
theorem c2_counterexample :
    generateTriple 4 52942 = some (10, 1, 0) ∧ ¬(10 ≤ min 40 4) := by
  constructor
  · rfl
  · decide

/-- Claim C3: get_systematic_index returns Some for K = 4..79 but none for
K = 80, although 80 lies inside the guarded range [4, KMAX]: the embedded
table stops at K = 79, contradicting the claim (and the source comment that
all values of RFC 5053 Section 5.7 are added). -/
theorem c3_systematic_index_gap :
    (∀ k, k < 80 → 4 ≤ k → (getSystematicIndex k).isSome = true) ∧
    getSystematicIndex 80 = none ∧ 4 ≤ 80 ∧ 80 ≤ KMAX := by
  refine ⟨by decide, by rfl, by decide, by decide⟩

/-- Claim C4: rand(X, i, m) equals V0[(X + i) mod 256] xor
V1[(X / 256 + i) mod 256] mod m for every table instance, every X, i, and
every m > 0, and the result is below m.  The table contents beyond the 16
embedded entries are spec-modelled (they are elided from the source). -/
theorem c4_rand_formula (t : RandTables) (x i m : Nat) (hm : 0 < m) :
    rand t x i m =
      Nat.xor (t.v0 ((x + i) % 256)) (t.v1 ((x / 256 + i) % 256)) % m ∧
    rand t x i m < m :=
  ⟨rfl, Nat.mod_lt _ hm⟩

/-- Claim C4 witness: the formula and range at the source's own test input
rand(123456, 0, 100), over the concrete table instance. -/
theorem c4_witness : 0 < 100 ∧ rand srcTables 123456 0 100 < 100 :=
  ⟨by decide, (c4_rand_formula srcTables 123456 0 100 (by decide)).2⟩

/-- Claim C5 (amended): for every K in [4, 256], LDPCParams::new(K) returns
S = ceil(0.01 K) + X with X the least positive integer satisfying
X(X-1) ≥ 2K — with NO adjustment of S to a prime — H the least positive
integer with C(H, ceil(H/2)) ≥ K + S, and L = K + S + H. -/
theorem c5_ldpc_params : ∀ k, k < 257 → 4 ≤ k → ldpcCheck k = true := by decide

/-- Claim C5 witness: the amended characterisation at K = 100. -/
theorem c5_witness : ldpcCheck 100 = true :=
  c5_ldpc_params 100 (by decide) (by decide)

/-- Claim C5 counterexample: for K = 100 the source returns S = 16, which is
not prime (the claim demands the smallest prime ≥ ceil(0.01 K) + X, which
would be 17). -/
theorem c5_counterexample :
    (LDPCParams.new 100).s = 16 ∧ ¬Nat.Prime 16 ∧ Nat.Prime 17 := by
  refine ⟨by rfl, by decide, by decide⟩

/-- Claim C6 (code evaluated at the failing input): a fresh K = 4, T = 1
decoder holds only the rank-deficient constraint rows (rank ≤ 4 < L = 14),
so the claim requires try_decode to report not-yet-solvable (Ok(false)); the
source instead returns Err(SystemNotSolvable), because equation_values starts
at length L ≥ K, making the row-count check pass and the failed solve an
error.  The state is returned unchanged inside the error. -/
theorem c6_trydecode_errs_when_rank_deficient :
    (Decoder.new 4 1).map Decoder.tryDecode =
      (Decoder.new 4 1).map (fun d => TDResult.err d .systemNotSolvable) := by
  rfl

/-- Claim C7 (code evaluated at the failing input): the parameters of the
source's own unit test (F = 1000000, W = 8192, P = 1024, A = 4, Gmax = 10)
satisfy every validity condition of the claim (A ≠ 0, A divides P, derived
T = 512 > 0), yet BlockParameters::new fails with TransferTooLarge, because
it rejects every transfer in which Kt·T exceeds F — i.e. every transfer whose
last symbol needs zero-padding. -/
theorem c7_blockparams_rejects_padded_transfer :
    BlockParameters.new 1000000 8192 1024 4 10 = .error .transferTooLarge := by
  rfl

/-- Claim C8 counterexample: the datagram send_block builds for a degree-3
block (as the sender passes block.degree() for the middle header field — a
K = 4 session would require [0, 0, 0, 4] there) carries [0, 0, 0, 3] at bytes
4..8: the field holds the block degree, not the source block symbol count K. -/
theorem c8_counterexample :
    ((sendFrame 42 3 0 [1, 2, 3, 4]).drop 4).take 4 = be32 3 ∧ be32 3 ≠ be32 4 := by
  refine ⟨by rfl, by decide⟩

/-- Claim C8 (amended): every datagram built by send_block carries the seed
(ESI) in bytes 0..4, the block DEGREE in bytes 4..8, the sequence number in
bytes 8..12 — each big-endian u32 — and the payload from byte 12 on;
receive_block parses exactly these fields back and rejects any datagram
shorter than the 12-byte header. -/
theorem c8_frame_layout (seed degree seq : Nat) (blockData : List Nat) :
    (sendFrame seed degree seq blockData).take 4 = be32 seed ∧
    ((sendFrame seed degree seq blockData).drop 4).take 4 = be32 degree ∧
    ((sendFrame seed degree seq blockData).drop 8).take 4 = be32 seq ∧
    (sendFrame seed degree seq blockData).drop 12 = blockData ∧
    receiveFrame (sendFrame seed degree seq blockData) =
      .ok (blockData, seed % 4294967296, degree % 4294967296, seq % 4294967296) ∧
    (∀ buf : List Nat, buf.length < 12 → receiveFrame buf = .error .packetTooSmall) := by
  refine ⟨rfl, rfl, rfl, rfl, ?_, ?_⟩
  · have hlen : ¬((sendFrame seed degree seq blockData).length < 12) := by
      simp [sendFrame, be32]
    unfold receiveFrame
    rw [if_neg hlen]
    show Except.ok (blockData, from32 (be32 seed), from32 (be32 degree), from32 (be32 seq)) = _
    rw [from32_be32, from32_be32, from32_be32]
  · intro buf hbuf
    unfold receiveFrame
    rw [if_pos hbuf]

/-- Claim C8 witness: a concrete frame parses back (1, 2, 3, [5]); a 1-byte
datagram is rejected. -/
theorem c8_witness :
    receiveFrame (sendFrame 1 2 3 [5]) = .ok ([5], 1, 2, 3) ∧
    receiveFrame [9] = .error .packetTooSmall := by
  constructor
  · exact (c8_frame_layout 1 2 3 [5]).2.2.2.2.1
  · exact (c8_frame_layout 0 0 0 []).2.2.2.2.2 [9] (by decide)

/-- Claim C9 (amended): adding the identical (block, sequence) pair twice and
then processing leaves the decoder in exactly the state of adding it once and
processing, for every starting state — HashMap::insert overwrites the
identical entry, so the two states are equal already before processing, and
hence processing (and try_decode) from them is identical too. -/
theorem c9_add_idempotent (d : Decoder) (b : Block) (q : Nat) :
    (d.addBlock b q).1.addBlock b q = d.addBlock b q ∧
    processPendingBlocks ((d.addBlock b q).1.addBlock b q).1 =
      processPendingBlocks (d.addBlock b q).1 ∧
    ((d.addBlock b q).1.addBlock b q).1.tryDecode = (d.addBlock b q).1.tryDecode := by
  have h : (d.addBlock b q).1.addBlock b q = d.addBlock b q := by
    unfold Decoder.addBlock
    by_cases hlen : b.data.length = d.blockSize
    · simp [hlen, mapInsert_idem]
    · simp [hlen]
  refine ⟨h, by rw [h], by rw [h]⟩

/-- Claim C9 counterexample: duplicates are not dropped and one distinct ESI
can put more than one row into the equation system.  On a K = 80, T = 1
decoder (base L = 104 equation values; K = 80 is in the guarded range but
missing from the embedded systematic table, so processing fails with a clean
Err and the block stays Pending — no panic anywhere on this run), feeding the
datagram (sequence 0, payload [5]) once leaves 105 equation values, feeding
the identical datagram twice leaves 106: the once-fed and twice-fed states
are not equivalent, and the single distinct ESI 0 has contributed two rows
where the claim allows at most one (105 in total). -/
theorem c9_counterexample :
    feedTwice.map (fun d => d.equationValues.length) = some 106 ∧
    feedOnce.map (fun d => d.equationValues.length) = some 105 ∧
    ¬(106 ≤ 105) := by
  refine ⟨by rfl, by rfl, by decide⟩

/-- Claim C10: solve is non-destructive (the threaded receiver state comes
back unchanged — every mutation in the source body targets the local clone
`augmented`), returns none when b's length differs from the row count, and
any solution it returns has length equal to the column count. -/
theorem c10_solve_frame (M : BinaryMatrix) (b : List Nat) :
    (M.solveS b).1 = M ∧
    (b.length ≠ M.rows → (M.solveS b).2 = none) ∧
    (∀ x, (M.solveS b).2 = some x → x.length = M.cols) := by
  refine ⟨rfl, ?_, ?_⟩
  · intro h
    simp [BinaryMatrix.solveS, BinaryMatrix.solve, h]
  · intro x hx
    simp only [BinaryMatrix.solveS, BinaryMatrix.solve] at hx
    by_cases hb : b.length ≠ M.rows
    · rw [if_pos hb] at hx
      exact Option.noConfusion hx
    · rw [if_neg hb] at hx
      by_cases hge :
          (BinaryMatrix.gaussianElimination
            { M with data := ((List.range M.rows).foldl
                (fun d i => d.set i (d.getD i [] ++ [b.getD i 0])) M.data) }).2 = false
      · rw [if_pos hge] at hx
        exact Option.noConfusion hx
      · rw [if_neg hge] at hx
        have := Option.some.inj hx
        rw [← this, foldr_set_length]
        exact List.length_replicate M.cols 0

/-- Claim C10 witness: a concrete 2 x 3 zero matrix with a length-1 b — the
length mismatch yields none and the matrix state is unchanged. -/
theorem c10_witness :
    ((BinaryMatrix.new 2 3).solveS [1]).2 = none ∧
    ((BinaryMatrix.new 2 3).solveS [1]).1 = BinaryMatrix.new 2 3 :=
  ⟨(c10_solve_frame (BinaryMatrix.new 2 3) [1]).2.1 (by decide),
   (c10_solve_frame (BinaryMatrix.new 2 3) [1]).1⟩
